import Mathlib

/-
Verification of `Sample.py`, the Robot Framework log-to-dashboard generator.

The script is embedded shallowly:
* the parsed XML tree is the inductive `XElem` (with its child list `XList`,
  a mutual inductive so that all recursions are structural and concrete
  documents evaluate inside the kernel);
* fallible Python operations return `Except PyErr _`, where `PyErr` names the
  exception class the interpreter would raise (`ET.ParseError`,
  `AttributeError` from a `None` access, `ValueError`/`TypeError` from
  `int(...)`);
* Python string helpers (`in`, `split(sep)[-1]`, `strip`, `int`, `str`,
  `"%.2f" % x`) are reimplemented on explicit character lists; floats are
  idealised as exact rationals, with the two-decimal rounding of `"%.2f"`
  embedded as round-half-up on the exact value.
-/

/-! ## Python string primitives -/

/-- Does the text start with the pattern (both as character lists)? -/
def listStartsWith : List Char → List Char → Bool
  | _, [] => true
  | [], _ :: _ => false
  | c :: cs, d :: ds => c == d && listStartsWith cs ds

/-- Helper for the Python substring test: does some suffix start with the pattern? -/
def containsSubAux : List Char → List Char → Bool
  | [], pat => pat.isEmpty
  | c :: cs, pat => listStartsWith (c :: cs) pat || containsSubAux cs pat

/-- Python `pat in s` on strings. -/
def strContains (s pat : String) : Bool :=
  containsSubAux s.data pat.data

/-- The text after the last non-overlapping left-to-right occurrence of `pat`,
or `none` when `pat` does not occur: the final piece of Python `s.split(pat)`.
Fuel-based so concrete inputs reduce in the kernel; each step consumes at least
one character, so `length + 1` fuel suffices. -/
def afterLastAux : Nat → List Char → List Char → Option (List Char)
  | 0, _, _ => none
  | fuel + 1, s, pat =>
    if listStartsWith s pat && !pat.isEmpty then
      some ((afterLastAux fuel (s.drop pat.length) pat).getD (s.drop pat.length))
    else
      match s with
      | [] => none
      | _ :: cs => afterLastAux fuel cs pat

/-- Python `s.split(pat)[-1]`: the final split piece (the whole string when
`pat` does not occur). -/
def pyLastPiece (s pat : String) : String :=
  String.mk ((afterLastAux (s.data.length + 1) s.data pat.data).getD s.data)

/-- Python `s.strip()`: whitespace removed from both ends. -/
def pyStrip (s : String) : String :=
  String.mk (((s.data.dropWhile Char.isWhitespace).reverse.dropWhile Char.isWhitespace).reverse)

/-- The Python exception classes the script can raise while loading. -/
inductive PyErr where
  | parseError
  | attributeError
  | valueError
  | typeError
deriving DecidableEq

/-- Accumulate the value of a decimal digit string. -/
def digitsToNatAux : List Char → Nat → Nat
  | [], acc => acc
  | c :: cs, acc => digitsToNatAux cs (acc * 10 + (c.toNat - 48))

/-- Digit-run parsing used by `pyIntStr`: nonempty all-digit run or `ValueError`. -/
def pyDigits (l : List Char) : Except PyErr Int :=
  if !l.isEmpty && l.all Char.isDigit then Except.ok (Int.ofNat (digitsToNatAux l 0))
  else Except.error PyErr.valueError

/-- Python `int(s)` for a string argument: strips whitespace, allows one sign,
then decimal digits; anything else raises `ValueError`. -/
def pyIntStr (s : String) : Except PyErr Int :=
  match (pyStrip s).data with
  | [] => Except.error PyErr.valueError
  | c :: cs =>
    if c == '-' then (pyDigits cs).map (fun n => -n)
    else if c == '+' then pyDigits cs
    else pyDigits (c :: cs)

/-- Python `int(x.text)` where the text may be `None`: `int(None)` raises
`TypeError`. -/
def pyIntText : Option String → Except PyErr Int
  | none => Except.error PyErr.typeError
  | some s => pyIntStr s

/-! ## Decimal rendering (`str(int)` and `"%.2f"`) -/

/-- Decimal digit characters of a natural number, most significant first
(fuel-based; `n + 1` fuel is plenty since each step divides by ten). -/
def natDecCharsAux : Nat → Nat → List Char
  | 0, _ => []
  | fuel + 1, n =>
    if n < 10 then [Nat.digitChar n]
    else natDecCharsAux fuel (n / 10) ++ [Nat.digitChar (n % 10)]

/-- Decimal digit characters of a natural number. -/
def natDecChars (n : Nat) : List Char :=
  natDecCharsAux (n + 1) n

/-- Python `str` of an integer — the plain-integer rendering the Jinja template
applies to the interpolated counts. -/
def intToStr (n : Int) : String :=
  (if n < 0 then ("-") else ("")) ++ String.mk (natDecChars n.natAbs)

/-- `100 * q` rounded to the nearest integer (half up), on the exact rational:
the hundredths kept by the `"%.2f"` format of the template. -/
def roundHundredths (q : ℚ) : Int :=
  Int.fdiv (q.num * 200 + q.den) (2 * q.den)

/-- The `{{ "%.2f"|format(pass_rate) }}` interpolation: optional sign, integer
part, decimal point, and exactly the two rounded hundredths digits. -/
def format2dp (q : ℚ) : String :=
  let h := (roundHundredths q).natAbs
  (if roundHundredths q < 0 then ("-") else ("")) ++ String.mk (natDecChars (h / 100)) ++
    (".") ++ String.mk [Nat.digitChar (h / 10 % 10), Nat.digitChar (h % 10)]

/-- Line 32 of `Sample.py`: `pass_rate = (passed / total * 100) if total > 0 else 0`,
Python float division idealised as exact rational division. -/
def pass_rate (passed total : Int) : ℚ :=
  if 0 < total then (passed : ℚ) / (total : ℚ) * 100 else 0

/-! ## The XML document model -/

mutual
/-- An `xml.etree.ElementTree` element: tag, attributes, text, children. -/
inductive XElem where
  | mk (tag : String) (attrs : List (String × String)) (text : Option String) (children : XList)
/-- A list of elements, mutual with `XElem` so recursion stays structural. -/
inductive XList where
  | nil : XList
  | cons (e : XElem) (rest : XList) : XList
end

/-- Build an `XList` from a `List` (for concrete documents). -/
def xl : List XElem → XList
  | [] => XList.nil
  | e :: rest => XList.cons e (xl rest)

/-- Python `elem.get(key)`: first attribute with the key, else `None`. -/
def attrLookup (attrs : List (String × String)) (k : String) : Option String :=
  (attrs.find? (fun kv => kv.1 == k)).map (fun kv => kv.2)

def XElem.tag : XElem → String
  | .mk t _ _ _ => t

def XElem.text : XElem → Option String
  | .mk _ _ tx _ => tx

def XElem.children : XElem → XList
  | .mk _ _ _ ch => ch

def XElem.getAttr : XElem → String → Option String
  | .mk _ a _ _, k => attrLookup a k

/-- First element of the list with the given tag (document order). -/
def firstTag : XList → String → Option XElem
  | .nil, _ => none
  | .cons e rest, t => if XElem.tag e == t then some e else firstTag rest t

/-- Python `elem.find(tag)` for a plain tag: first direct child with that tag. -/
def XElem.findChild (e : XElem) (t : String) : Option XElem :=
  firstTag e.children t

/-- Number of elements of the list carrying the given tag. -/
def XList.countTag : XList → String → Nat
  | .nil, _ => 0
  | .cons e rest, t => (if XElem.tag e == t then 1 else 0) + XList.countTag rest t

mutual
/-- All proper descendants of an element in document order (the iteration
order of the `.//` searches of `ElementTree`). -/
def XElem.descendants : XElem → List XElem
  | .mk _ _ _ ch => XList.descList ch
def XList.descList : XList → List XElem
  | .nil => []
  | .cons e rest => e :: (XElem.descendants e ++ XList.descList rest)
end

/-- Line 27: `root.find(".//total//all")` — the first `all` descendant of a
`total` descendant, iterating `total`s in document order and their `all`
descendants in document order. -/
def findTotalAll (root : XElem) : Option XElem :=
  (((XElem.descendants root).filter (fun e => XElem.tag e == ("total"))).flatMap
    (fun t => (XElem.descendants t).filter (fun a => XElem.tag a == ("all")))).head?

/-- Lines 42-43: the texts of all `msg` descendants, `None` read as `""`. -/
def msgTexts (root : XElem) : List String :=
  ((XElem.descendants root).filter (fun m => XElem.tag m == ("msg"))).map
    (fun m => (XElem.text m).getD (""))

/-! ## Statistics extraction (lines 27-32) -/

/-- `int(stats_total.find(t).text)`: `AttributeError` when the child is absent
(`None.text`), then Python `int` on the text. -/
def childInt (st : XElem) (t : String) : Except PyErr Int :=
  match XElem.findChild st t with
  | none => Except.error PyErr.attributeError
  | some e => pyIntText (XElem.text e)

/-- Lines 27-30: locate the statistics node and read the three counts.
A missing `.//total//all` node means `stats_total` is `None` and the first
`.find` on it raises `AttributeError`. -/
def loadStats (root : XElem) : Except PyErr (Int × Int × Int) :=
  match findTotalAll root with
  | none => Except.error PyErr.attributeError
  | some st =>
    match childInt st ("pass") with
    | Except.error err => Except.error err
    | Except.ok p =>
      match childInt st ("fail") with
      | Except.error err => Except.error err
      | Except.ok f =>
        match childInt st ("skip") with
        | Except.error err => Except.error err
        | Except.ok s => Except.ok (p, f, s)

/-! ## Metadata scan (lines 36-47) -/

/-- One message step for a single needle: on a match the value becomes the
stripped text after the last needle occurrence (`text.split(needle)[-1].strip()`),
otherwise the current value is kept. -/
def scanOne (needle cur t : String) : String :=
  if strContains t needle then pyStrip (pyLastPiece t needle) else cur

/-- Lines 42-47: one message updates both metadata slots independently. -/
def scanStep (p : String × String) (t : String) : String × String :=
  ⟨scanOne ("Environment:") p.1 t, scanOne ("Executed by:") p.2 t⟩

/-- The whole metadata loop over every `msg` text, in document order;
the pair is `(env_info, executor)`. -/
def scanMeta (msgs : List String) (p : String × String) : String × String :=
  msgs.foldl scanStep p

/-! ## Suite/test tree parsing (lines 50-77) -/

/-- The `test_data` record built for each test element (lines 64-72). -/
structure TestRecord where
  name : Option String
  id : Option String
  status : Option String
  starttime : Option String
  endtime : Option String
  elapsed : Option String
  critical : String
deriving DecidableEq

mutual
/-- The `suite_data` record built for each suite element (lines 53-62). -/
inductive SuiteData where
  | mk (name id status starttime endtime elapsed : Option String)
      (tests : List TestRecord) (sub_suites : SList)
/-- A list of suites, mutual with `SuiteData`. -/
inductive SList where
  | nil : SList
  | cons (s : SuiteData) (rest : SList) : SList
end

def SuiteData.name : SuiteData → Option String
  | .mk n _ _ _ _ _ _ _ => n

def SuiteData.status : SuiteData → Option String
  | .mk _ _ st _ _ _ _ _ => st

def SuiteData.elapsed : SuiteData → Option String
  | .mk _ _ _ _ _ el _ _ => el

def SuiteData.tests : SuiteData → List TestRecord
  | .mk _ _ _ _ _ _ ts _ => ts

def SuiteData.sub_suites : SuiteData → SList
  | .mk _ _ _ _ _ _ _ ss => ss

def SList.length : SList → Nat
  | .nil => 0
  | .cons _ rest => 1 + SList.length rest

/-- Lines 64-72: build a `test_data` record. `test_elem.find("status")` being
`None` makes the `.get` raise `AttributeError`; a missing `critical` attribute
falls back to `"yes"` via `get("critical", "yes")`. -/
def parseTest (t : XElem) : Except PyErr TestRecord :=
  match XElem.findChild t ("status") with
  | none => Except.error PyErr.attributeError
  | some st =>
    Except.ok ⟨XElem.getAttr t ("name"), XElem.getAttr t ("id"),
      XElem.getAttr st ("status"), XElem.getAttr st ("starttime"),
      XElem.getAttr st ("endtime"), XElem.text st,
      (XElem.getAttr t ("critical")).getD ("yes")⟩

/-- The `for test_elem in suite_elem.findall("test")` loop, in document order. -/
def parseTests : XList → Except PyErr (List TestRecord)
  | .nil => Except.ok []
  | .cons e rest =>
    if XElem.tag e == ("test") then
      match parseTest e with
      | Except.error err => Except.error err
      | Except.ok d =>
        match parseTests rest with
        | Except.error err => Except.error err
        | Except.ok ds => Except.ok (d :: ds)
    else parseTests rest

mutual
/-- The body of the `for suite_elem in element.findall("suite")` loop: the
status child is read first (its absence raises `AttributeError`), then
`sub_suites = parse_suite(suite_elem)` recurses, then the tests loop runs. -/
def parseOne : XElem → Except PyErr SuiteData
  | .mk _ a _ ch =>
    match firstTag ch ("status") with
    | none => Except.error PyErr.attributeError
    | some st =>
      match parseList ch with
      | Except.error err => Except.error err
      | Except.ok subs =>
        match parseTests ch with
        | Except.error err => Except.error err
        | Except.ok tests =>
          Except.ok (SuiteData.mk (attrLookup a ("name")) (attrLookup a ("id"))
            (XElem.getAttr st ("status")) (XElem.getAttr st ("starttime"))
            (XElem.getAttr st ("endtime")) (XElem.text st) tests subs)
/-- Iterate the direct children, keeping the suite-tagged ones in document
order (`findall("suite")`). -/
def parseList : XList → Except PyErr SList
  | .nil => Except.ok SList.nil
  | .cons e rest =>
    if XElem.tag e == ("suite") then
      match parseOne e with
      | Except.error err => Except.error err
      | Except.ok d =>
        match parseList rest with
        | Except.error err => Except.error err
        | Except.ok ds => Except.ok (SList.cons d ds)
    else parseList rest
end

/-- Lines 50-75: `parse_suite(element)` — one record per direct `suite` child. -/
def parse_suite (e : XElem) : Except PyErr SList :=
  parseList (XElem.children e)

/-! ## The loader (lines 18-77 without the file check) -/

/-- The RunSummary data record the loader produces (§3 of the design). -/
structure RunSummary where
  total : Int
  passed : Int
  failed : Int
  skipped : Int
  pass_rate : ℚ
  start_time : Option String
  executor : String
  env_info : String

/-- Lines 23-77 on an already-parsed document: statistics, derived totals,
metadata scan, and the suite tree. Any uncaught Python exception is the
`Except.error` value. -/
def loadDoc (root : XElem) : Except PyErr (RunSummary × SList) :=
  match loadStats root with
  | Except.error err => Except.error err
  | Except.ok (p, f, s) =>
    match parse_suite root with
    | Except.error err => Except.error err
    | Except.ok suites =>
      Except.ok (⟨p + f + s, p, f, s, pass_rate p (p + f + s),
        XElem.getAttr root ("generated"),
        (scanMeta (msgTexts root) ⟨("Not specified"), (XElem.getAttr root ("generator")).getD ("Unknown")⟩).2,
        (scanMeta (msgTexts root) ⟨("Not specified"), (XElem.getAttr root ("generator")).getD ("Unknown")⟩).1⟩,
        suites)

/-- `ET.parse` composed with the loader: a malformed file (no document) raises
`ET.ParseError`; otherwise the document is processed. -/
def loadInput : Option XElem → Except PyErr (RunSummary × SList)
  | none => Except.error PyErr.parseError
  | some root => loadDoc root

/-! ## Process-level behaviour (lines 18-20 and 304-316) -/

/-- Observable effects of one invocation. -/
structure ProgOut where
  exitCode : Nat
  printed : List String
  written : Option String

/-- The message printed at line 19: `f"Error: {LOG_FILE} not found!"`. -/
def errMsg (p : String) : String :=
  ("Error: ") ++ p ++ (" not found!")

/-- The control flow of the script: the existence check and `exit(1)` before any
parsing (lines 18-20); an uncaught exception aborts with a non-zero status and
writes nothing; otherwise the rendered page is written to the output path and
the success banner is printed (lines 304-316, banner abbreviated). -/
def runProgram (logExists : Bool) (doc : Option XElem) (logFile outputFile : String) : ProgOut :=
  if logExists then
    match loadInput doc with
    | Except.error _ => ⟨1, [], none⟩
    | Except.ok _ => ⟨0, [("Dashboard generated successfully!"),
        ("Open ") ++ outputFile ++ (" in your browser.")], some outputFile⟩
  else ⟨1, [errMsg logFile], none⟩

/-! ## The rendered suite/test table (template lines 197-218) -/

/-- A row of the output of the `render_suite` macro, identified by the interpolated
name: a suite header row or a test row. -/
inductive Row where
  | suiteRow : Option String → Row
  | testRow : Option String → Row
deriving DecidableEq

/-- The `{% for test in suite.tests %}` rows, in list order. -/
def testRowsOf (ts : List TestRecord) : List Row :=
  ts.map (fun t => Row.testRow (TestRecord.name t))

mutual
/-- `render_suite(suite, level)`: the suite header row, then the test rows,
then the recursively rendered sub-suites, in that order. -/
def renderSuiteRows : SuiteData → List Row
  | .mk n _ _ _ _ _ ts subs => Row.suiteRow n :: (testRowsOf ts ++ renderRowsList subs)
/-- The `{% for subsuite in suite.sub_suites %}` recursion, in list order. -/
def renderRowsList : SList → List Row
  | .nil => []
  | .cons s rest => renderSuiteRows s ++ renderRowsList rest
end

/-- Template line 218: `{{ render_suite(suites[0]) if suites else "" }}` —
only the first top-level suite is rendered. -/
def renderTable : SList → List Row
  | SList.nil => []
  | SList.cons s _ => renderSuiteRows s

/-- The test elements of a child list in document order, as rows. -/
def docTestRows : XList → List Row
  | .nil => []
  | .cons e rest =>
    (if XElem.tag e == ("test") then [Row.testRow (XElem.getAttr e ("name"))] else []) ++
      docTestRows rest

mutual
/-- The rows a suite element should produce if rendering follows document
order: its own header, its test elements in document order, then its suite
elements recursively in document order. -/
def docRowsE : XElem → List Row
  | .mk _ a _ ch => Row.suiteRow (attrLookup a ("name")) :: (docTestRows ch ++ docRowsL ch)
/-- Document-order row expansion of the suite elements of a child list. -/
def docRowsL : XList → List Row
  | .nil => []
  | .cons e rest => (if XElem.tag e == ("suite") then docRowsE e else []) ++ docRowsL rest
end

/-- Document-order rows of the first top-level suite element (empty table when
the document has none). -/
def docTable (root : XElem) : List Row :=
  match firstTag (XElem.children root) ("suite") with
  | none => []
  | some s => docRowsE s

/-! ## The summary-card markup (template lines 115-149) -/

/-- A fragment of the Jinja template: literal markup or a `{{ ... }}` hole. -/
inductive Chunk where
  | lit : String → Chunk
  | hole : String → Chunk
deriving DecidableEq

/-- The four summary cards of the template, split at their interpolation
holes; `pass_rate_2f` stands for the `{{ "%.2f"|format(pass_rate) }}` hole. -/
def summaryCards : List Chunk :=
  [Chunk.lit ("<div class=\"row mb-4\">\n<div class=\"col-md-3\">\n<div class=\"card text-center border-primary\">\n<div class=\"card-body\">\n<h5 class=\"card-title\">Total Tests</h5>\n<h2 class=\"text-primary\">"),
   Chunk.hole ("total"),
   Chunk.lit ("</h2>\n</div>\n</div>\n</div>\n<div class=\"col-md-3\">\n<div class=\"card text-center border-success\">\n<div class=\"card-body\">\n<h5 class=\"card-title\">Passed</h5>\n<h2 class=\"text-success\">"),
   Chunk.hole ("passed"),
   Chunk.lit ("</h2>\n</div>\n</div>\n</div>\n<div class=\"col-md-3\">\n<div class=\"card text-center border-danger\">\n<div class=\"card-body\">\n<h5 class=\"card-title\">Failed</h5>\n<h2 class=\"text-danger\">"),
   Chunk.hole ("failed"),
   Chunk.lit ("</h2>\n</div>\n</div>\n</div>\n<div class=\"col-md-3\">\n<div class=\"card text-center border-warning\">\n<div class=\"card-body\">\n<h5 class=\"card-title\">Pass Rate</h5>\n<h2 class=\"text-warning\">"),
   Chunk.hole ("pass_rate_2f"),
   Chunk.lit ("%</h2>\n</div>\n</div>\n</div>\n</div>")]

/-- How the template data fills each summary-card hole: counts via Python
`str` (plain integers), the pass rate via `"%.2f"`. -/
def cardValue (rs : RunSummary) (h : String) : String :=
  if h == ("total") then intToStr rs.total
  else if h == ("passed") then intToStr rs.passed
  else if h == ("failed") then intToStr rs.failed
  else if h == ("pass_rate_2f") then format2dp rs.pass_rate
  else ("")

/-- Substitute a chunk list into a string. -/
def renderChunks (f : String → String) : List Chunk → String
  | [] => ("")
  | Chunk.lit s :: rest => s ++ renderChunks f rest
  | Chunk.hole h :: rest => f h ++ renderChunks f rest

/-- The rendered summary-card markup for a run summary. -/
def renderSummaryCards (rs : RunSummary) : String :=
  renderChunks (cardValue rs) summaryCards

/-- How many interpolation holes of a chunk list carry the given name. -/
def holeCount : List Chunk → String → Nat
  | [], _ => 0
  | Chunk.lit _ :: rest, h => holeCount rest h
  | Chunk.hole g :: rest, h => (if g == h then 1 else 0) + holeCount rest h

/-! ## Well-formedness predicates (for the positive loading direction) -/

/-- Does this `Except` carry a value? -/
def exOk {α : Type} : Except PyErr α → Bool
  | Except.ok _ => true
  | Except.error _ => false

/-- The statistics block is present and all three counts parse as integers. -/
def statsOk (root : XElem) : Bool :=
  match findTotalAll root with
  | none => false
  | some st => exOk (childInt st ("pass")) && exOk (childInt st ("fail")) && exOk (childInt st ("skip"))

/-- Every test-tagged element of the list has a `status` child. -/
def testsOk : XList → Bool
  | XList.nil => true
  | XList.cons e rest =>
    (if XElem.tag e == ("test") then (XElem.findChild e ("status")).isSome else true) && testsOk rest

mutual
/-- A suite element parses cleanly: it has a `status` child, its suite
children do recursively, and its test children have `status` children. -/
def suiteOk : XElem → Bool
  | .mk _ _ _ ch => (firstTag ch ("status")).isSome && suitesOk ch && testsOk ch
/-- Every suite-tagged element of the list satisfies `suiteOk`. -/
def suitesOk : XList → Bool
  | .nil => true
  | .cons e rest => (if XElem.tag e == ("suite") then suiteOk e else true) && suitesOk rest
end

/-! ## Concrete documents used by witnesses and counterexamples -/

/-- The `<statistics><total><all>` block with integer texts 7/2/1. -/
def statsBlock : XElem :=
  XElem.mk ("statistics") [] none (xl [
    XElem.mk ("total") [] none (xl [
      XElem.mk ("all") [] none (xl [
        XElem.mk ("pass") [] (some ("7")) (xl []),
        XElem.mk ("fail") [] (some ("2")) (xl []),
        XElem.mk ("skip") [] (some ("1")) (xl [])])])])

/-- A small complete results document: one root suite with two tests and a
child suite, an environment message, and the 7/2/1 statistics. -/
def sampleDoc : XElem :=
  XElem.mk ("robot") [("generated", ("20231001 10:00:00")), ("generator", ("Robot 6.0"))] none (xl [
    XElem.mk ("suite") [("name", ("Root")), ("id", ("s1"))] none (xl [
      XElem.mk ("status") [("status", ("FAIL")), ("starttime", ("a0")), ("endtime", ("a1"))] (some ("1.5")) (xl []),
      XElem.mk ("test") [("name", ("T1")), ("id", ("s1-t1"))] none (xl [
        XElem.mk ("status") [("status", ("PASS")), ("starttime", ("b0")), ("endtime", ("b1"))] (some ("0.3")) (xl [])]),
      XElem.mk ("test") [("name", ("T2")), ("id", ("s1-t2")), ("critical", ("no"))] none (xl [
        XElem.mk ("status") [("status", ("FAIL"))] (some ("0.2")) (xl [])]),
      XElem.mk ("suite") [("name", ("Child")), ("id", ("s1-s2"))] none (xl [
        XElem.mk ("status") [("status", ("PASS"))] (some ("0.9")) (xl []),
        XElem.mk ("test") [("name", ("T3"))] none (xl [
          XElem.mk ("status") [("status", ("SKIP"))] (some ("0.1")) (xl [])])]),
      XElem.mk ("msg") [] (some ("Environment: staging")) (xl [])]),
    statsBlock])

/-- The suite tree the loader builds from `sampleDoc`. -/
def slSample : SList :=
  SList.cons
    (SuiteData.mk (some ("Root")) (some ("s1")) (some ("FAIL")) (some ("a0")) (some ("a1")) (some ("1.5"))
      [⟨some ("T1"), some ("s1-t1"), some ("PASS"), some ("b0"), some ("b1"), some ("0.3"), ("yes")⟩,
       ⟨some ("T2"), some ("s1-t2"), some ("FAIL"), none, none, some ("0.2"), ("no")⟩]
      (SList.cons
        (SuiteData.mk (some ("Child")) (some ("s1-s2")) (some ("PASS")) none none (some ("0.9"))
          [⟨some ("T3"), none, some ("SKIP"), none, none, some ("0.1"), ("yes")⟩] SList.nil)
        SList.nil))
    SList.nil

/-- The run summary the loader builds from `sampleDoc`. -/
def rsSample : RunSummary :=
  ⟨10, 7, 2, 1, pass_rate 7 10, some ("20231001 10:00:00"), ("Robot 6.0"), ("staging")⟩

/-- An `all` statistics node supplying only `pass` and `fail` counts (the
`skip` child is absent). -/
def allNoSkip : XElem :=
  XElem.mk ("all") [] none (xl [
    XElem.mk ("pass") [] (some ("3")) (xl []),
    XElem.mk ("fail") [] (some ("1")) (xl [])])

/-- A document whose statistics block supplies only `pass` and `fail` counts. -/
def docNoSkip : XElem :=
  XElem.mk ("robot") [] none (xl [
    XElem.mk ("statistics") [] none (xl [
      XElem.mk ("total") [] none (xl [allNoSkip])])])

/-- A well-formed document with no statistics nodes at all. -/
def docNoStats : XElem :=
  XElem.mk ("robot") [] none (xl [
    XElem.mk ("suite") [("name", ("S"))] none (xl [
      XElem.mk ("status") [("status", ("PASS"))] (some ("1")) (xl [])])])

/-- A document whose root has two direct suite children. -/
def twoSuiteDoc : XElem :=
  XElem.mk ("robot") [] none (xl [
    XElem.mk ("suite") [("name", ("A"))] none (xl [
      XElem.mk ("status") [("status", ("PASS"))] (some ("1")) (xl [])]),
    XElem.mk ("suite") [("name", ("B"))] none (xl [
      XElem.mk ("status") [("status", ("FAIL"))] (some ("2")) (xl [])])])

/-- What `parse_suite` produces on `twoSuiteDoc`: two roots. -/
def slTwo : SList :=
  SList.cons (SuiteData.mk (some ("A")) none (some ("PASS")) none none (some ("1")) [] SList.nil)
    (SList.cons (SuiteData.mk (some ("B")) none (some ("FAIL")) none none (some ("2")) [] SList.nil)
      SList.nil)

/-- A suite element whose status text is the millisecond integer `61000`. -/
def suiteMs : XElem :=
  XElem.mk ("suite") [("name", ("S"))] none (xl [
    XElem.mk ("status") [("status", ("PASS"))] (some ("61000")) (xl [])])

/-- What `parseOne` produces on `suiteMs`: the raw text is kept. -/
def dMs : SuiteData :=
  SuiteData.mk (some ("S")) none (some ("PASS")) none none (some ("61000")) [] SList.nil

/-- Modelled from the spec: the millisecond-to-`"HhMmSs"` duration conversion
that §4.1 of the design describes ("convert a millisecond integer into an
HhMmSs string"); no such conversion exists anywhere in `Sample.py`. -/
def specFormatMs (ms : Nat) : String :=
  String.mk (natDecChars (ms / 3600000)) ++ ("h") ++
    String.mk (natDecChars (ms % 3600000 / 60000)) ++ ("m") ++
    String.mk (natDecChars (ms % 60000 / 1000)) ++ ("s")

/-- A test element without a `critical` attribute. -/
def testNoCrit : XElem :=
  XElem.mk ("test") [("name", ("T"))] none (xl [
    XElem.mk ("status") [("status", ("PASS"))] (some ("5")) (xl [])])

/-! ## Induction principles packaged from the generated mutual recursors -/

/-- Mutual induction for `XElem`/`XList`. -/
theorem xInd (P : XElem → Prop) (Q : XList → Prop)
    (hmk : ∀ t a tx ch, Q ch → P (XElem.mk t a tx ch))
    (h0 : Q XList.nil) (h1 : ∀ e rest, P e → Q rest → Q (XList.cons e rest)) :
    (∀ e, P e) ∧ (∀ l, Q l) :=
  ⟨fun e => @XElem.rec P Q hmk h0 h1 e, fun l => @XList.rec P Q hmk h0 h1 l⟩

/-- List-shaped induction for `XList` alone. -/
theorem xlInd (Q : XList → Prop) (h0 : Q XList.nil)
    (h1 : ∀ e rest, Q rest → Q (XList.cons e rest)) : ∀ l, Q l :=
  (xInd (fun _ => True) Q (fun _ _ _ _ _ => trivial) h0 (fun e rest _ hq => h1 e rest hq)).2

/-! ## Decimal-rendering lemmas -/

/-- Digit characters for values below ten are never a decimal point. -/
theorem digitChar_lt_ten_ne_dot : ∀ m, m < 10 → Nat.digitChar m ≠ ('.' : Char) := by
  decide

/-- Every character emitted by `natDecCharsAux` is a digit character. -/
theorem mem_natDecCharsAux : ∀ fuel n c, c ∈ natDecCharsAux fuel n →
    ∃ m, m < 10 ∧ c = Nat.digitChar m := by
  intro fuel
  induction fuel with
  | zero => intro n c h; simp [natDecCharsAux] at h
  | succ k ih =>
    intro n c h
    by_cases hn : n < 10
    · simp only [natDecCharsAux, if_pos hn, List.mem_singleton] at h
      exact ⟨n, hn, h⟩
    · simp only [natDecCharsAux, if_neg hn, List.mem_append, List.mem_singleton] at h
      rcases h with h | h
      · exact ih _ _ h
      · exact ⟨n % 10, Nat.mod_lt _ (by norm_num), h⟩

/-- No decimal point occurs among the digit characters of a natural number. -/
theorem natDecChars_ne_dot (n : Nat) (c : Char) (h : c ∈ natDecChars n) : c ≠ ('.' : Char) := by
  obtain ⟨m, hm, rfl⟩ := mem_natDecCharsAux (n + 1) n c h
  exact digitChar_lt_ten_ne_dot m hm

/-- Python `str` of an integer never contains a decimal point: the counts are
rendered as plain integers. -/
theorem intToStr_no_dot (n : Int) : ('.' : Char) ∉ (intToStr n).data := by
  intro hmem
  unfold intToStr at hmem
  rw [String.data_append] at hmem
  rcases List.mem_append.mp hmem with h | h
  · by_cases hn : n < 0
    · rw [if_pos hn] at h
      simp at h
    · rw [if_neg hn] at h
      simp at h
  · exact natDecChars_ne_dot n.natAbs _ h rfl

/-- The `"%.2f"` rendering always consists of a dot-free integer part, one
decimal point, and exactly two digits after it. -/
theorem format2dp_shape (q : ℚ) : ∃ ip fr : List Char,
    (format2dp q).data = ip ++ ('.' : Char) :: fr ∧ fr.length = 2 ∧
    ('.' : Char) ∉ ip ∧ ('.' : Char) ∉ fr := by
  refine ⟨(if roundHundredths q < 0 then ("-") else ("")).data ++
      natDecChars ((roundHundredths q).natAbs / 100),
    [Nat.digitChar ((roundHundredths q).natAbs / 10 % 10),
     Nat.digitChar ((roundHundredths q).natAbs % 10)], ?_, rfl, ?_, ?_⟩
  · show (format2dp q).data = _
    unfold format2dp
    simp only [String.data_append, List.append_assoc]
    rfl
  · intro h
    rcases List.mem_append.mp h with h | h
    · by_cases hn : roundHundredths q < 0
      · rw [if_pos hn] at h
        simp at h
      · rw [if_neg hn] at h
        simp at h
    · exact natDecChars_ne_dot _ _ h rfl
  · intro h
    rcases List.mem_cons.mp h with h | h
    · exact digitChar_lt_ten_ne_dot _ (Nat.mod_lt _ (by norm_num)) h.symm
    · rcases List.mem_singleton.mp h with h
      exact digitChar_lt_ten_ne_dot _ (Nat.mod_lt _ (by norm_num)) h.symm

/-! ## Pass-rate bounds -/

/-- The pass rate is non-negative whenever the passed count is. -/
theorem pass_rate_nonneg (p t : Int) (hp : (0 : Int) ≤ p) : 0 ≤ pass_rate p t := by
  unfold pass_rate
  split
  · next ht =>
    have hpq : (0 : ℚ) ≤ (p : ℚ) := by exact_mod_cast hp
    have htq : (0 : ℚ) ≤ (t : ℚ) := by exact_mod_cast le_of_lt ht
    exact mul_nonneg (div_nonneg hpq htq) (by norm_num)
  · exact le_refl 0

/-- The pass rate is at most 100 whenever `0 ≤ passed ≤ total`. -/
theorem pass_rate_le_100 (p t : Int) (hpt : p ≤ t) :
    pass_rate p t ≤ 100 := by
  unfold pass_rate
  split
  · next ht =>
    have htq : (0 : ℚ) < (t : ℚ) := by exact_mod_cast ht
    have h1 : (p : ℚ) / (t : ℚ) ≤ 1 := by
      rw [div_le_one htq]
      exact_mod_cast hpt
    calc (p : ℚ) / (t : ℚ) * 100 ≤ 1 * 100 :=
          mul_le_mul_of_nonneg_right h1 (by norm_num)
      _ = 100 := by norm_num
  · norm_num

/-! ## Metadata-scan lemmas -/

/-- The environment slot of the metadata scan is a fold of the single-needle
step over the messages. -/
theorem scanMeta_fst : ∀ (msgs : List String) (p : String × String),
    (scanMeta msgs p).1 = msgs.foldl (scanOne ("Environment:")) p.1 := by
  intro msgs
  induction msgs with
  | nil => intro p; rfl
  | cons t ms ih =>
    intro p
    show (scanMeta ms (scanStep p t)).1 = _
    rw [ih (scanStep p t)]
    rfl

/-- The executor slot of the metadata scan is a fold of the single-needle
step over the messages. -/
theorem scanMeta_snd : ∀ (msgs : List String) (p : String × String),
    (scanMeta msgs p).2 = msgs.foldl (scanOne ("Executed by:")) p.2 := by
  intro msgs
  induction msgs with
  | nil => intro p; rfl
  | cons t ms ih =>
    intro p
    show (scanMeta ms (scanStep p t)).2 = _
    rw [ih (scanStep p t)]
    rfl

/-- When no message contains the needle, the scanned value keeps its default. -/
theorem foldl_scanOne_of_no_match (needle : String) :
    ∀ (msgs : List String) (c : String),
      msgs.filter (fun x => strContains x needle) = [] →
      msgs.foldl (scanOne needle) c = c := by
  intro msgs
  induction msgs with
  | nil => intro c _; rfl
  | cons t ms ih =>
    intro c hf
    rw [List.filter_cons] at hf
    by_cases hm : strContains t needle
    · simp [hm] at hf
    · simp only [hm, if_neg] at hf
      rw [List.foldl_cons, show scanOne needle c t = c from by simp [scanOne, hm]]
      exact ih c (by simpa [hm] using hf)

/-- When some message contains the needle, the scanned value is the stripped
trailing substring of the last matching message. -/
theorem foldl_scanOne_of_last (needle : String) :
    ∀ (msgs : List String) (c : String) (ts : List String) (t : String),
      msgs.filter (fun x => strContains x needle) = ts ++ [t] →
      msgs.foldl (scanOne needle) c = pyStrip (pyLastPiece t needle) := by
  intro msgs
  induction msgs using List.reverseRecOn with
  | nil => intro c ts t h; simp at h
  | append_singleton ms m ih =>
    intro c ts t h
    rw [List.filter_append, List.foldl_append] at *
    by_cases hm : strContains m needle
    · have hmf : List.filter (fun x => strContains x needle) [m] = [m] := by simp [hm]
      rw [hmf] at h
      have ht : t = m := by
        have hlast := congrArg List.getLast? h
        rw [List.getLast?_concat, List.getLast?_concat] at hlast
        exact (Option.some.injEq _ _).mp hlast.symm
      subst ht
      simp [List.foldl, scanOne, hm]
    · have hmf : List.filter (fun x => strContains x needle) [m] = [] := by simp [hm]
      rw [hmf, List.append_nil] at h
      rw [show List.foldl (scanOne needle) (List.foldl (scanOne needle) c ms) [m] =
          List.foldl (scanOne needle) c ms from by simp [List.foldl, scanOne, hm]]
      exact ih c ts t h

/-! ## Parse-tree lemmas -/

/-- Field values of a successfully parsed test record. -/
theorem parseTest_fields (e : XElem) (d : TestRecord) (h : parseTest e = Except.ok d) :
    ∃ st, XElem.findChild e ("status") = some st ∧
      TestRecord.name d = XElem.getAttr e ("name") ∧
      TestRecord.elapsed d = XElem.text st ∧
      TestRecord.critical d = (XElem.getAttr e ("critical")).getD ("yes") := by
  unfold parseTest at h
  cases hst : XElem.findChild e ("status") with
  | none => rw [hst] at h; exact absurd h (by simp)
  | some st =>
    rw [hst] at h
    simp only [Except.ok.injEq] at h
    subst h
    exact ⟨st, rfl, rfl, rfl, rfl⟩

/-- The parsed test records of a child list turn into exactly the test rows
of the document, in document order. -/
theorem parseTests_rows : ∀ l ts, parseTests l = Except.ok ts →
    testRowsOf ts = docTestRows l := by
  refine xlInd (fun l => ∀ ts, parseTests l = Except.ok ts → testRowsOf ts = docTestRows l)
    ?_ ?_
  · intro ts h
    simp only [parseTests, Except.ok.injEq] at h
    subst h
    rfl
  · intro e rest ih ts h
    simp only [parseTests] at h
    by_cases htag : XElem.tag e == ("test")
    · rw [if_pos htag] at h
      cases hpt : parseTest e with
      | error err => rw [hpt] at h; exact absurd h (by simp)
      | ok d =>
        rw [hpt] at h
        cases hrest : parseTests rest with
        | error err => rw [hrest] at h; exact absurd h (by simp)
        | ok ds =>
          rw [hrest] at h
          simp only [Except.ok.injEq] at h
          subst h
          obtain ⟨st, _, hname, _, _⟩ := parseTest_fields e d hpt
          show Row.testRow (TestRecord.name d) :: testRowsOf ds = docTestRows (XList.cons e rest)
          rw [hname, ih ds hrest]
          simp [docTestRows, htag]
    · rw [if_neg htag] at h
      have := ih ts h
      simp only [docTestRows, if_neg htag, List.nil_append]
      exact this

/-- Rendering a parsed suite tree reproduces the document order of the source
elements: header, tests in element order, then sub-suites in element order. -/
theorem parse_render :
    (∀ e d, parseOne e = Except.ok d → renderSuiteRows d = docRowsE e) ∧
    (∀ l sl, parseList l = Except.ok sl → renderRowsList sl = docRowsL l) := by
  refine xInd (fun e => ∀ d, parseOne e = Except.ok d → renderSuiteRows d = docRowsE e)
    (fun l => ∀ sl, parseList l = Except.ok sl → renderRowsList sl = docRowsL l) ?_ ?_ ?_
  · intro t a tx ch hch d h
    simp only [parseOne] at h
    cases hst : firstTag ch ("status") with
    | none => rw [hst] at h; exact absurd h (by simp)
    | some st =>
      rw [hst] at h
      cases hsubs : parseList ch with
      | error err => rw [hsubs] at h; exact absurd h (by simp)
      | ok subs =>
        rw [hsubs] at h
        cases hts : parseTests ch with
        | error err => rw [hts] at h; exact absurd h (by simp)
        | ok tests =>
          rw [hts] at h
          simp only [Except.ok.injEq] at h
          subst h
          show Row.suiteRow (attrLookup a ("name")) :: (testRowsOf tests ++ renderRowsList subs) =
            docRowsE (XElem.mk t a tx ch)
          rw [parseTests_rows ch tests hts, hch subs hsubs]
          rfl
  · intro sl h
    simp only [parseList, Except.ok.injEq] at h
    subst h
    rfl
  · intro e rest he hrest sl h
    simp only [parseList] at h
    by_cases htag : XElem.tag e == ("suite")
    · rw [if_pos htag] at h
      cases hpe : parseOne e with
      | error err => rw [hpe] at h; exact absurd h (by simp)
      | ok d =>
        rw [hpe] at h
        cases hr : parseList rest with
        | error err => rw [hr] at h; exact absurd h (by simp)
        | ok ds =>
          rw [hr] at h
          simp only [Except.ok.injEq] at h
          subst h
          show renderSuiteRows d ++ renderRowsList ds = docRowsL (XList.cons e rest)
          rw [he d hpe, hrest ds hr]
          simp [docRowsL, htag]
    · rw [if_neg htag] at h
      simp only [docRowsL, if_neg htag, List.nil_append]
      exact hrest sl h

/-- The number of parsed roots equals the number of suite-tagged elements. -/
theorem parseList_length : ∀ l sl, parseList l = Except.ok sl →
    SList.length sl = XList.countTag l ("suite") := by
  refine xlInd (fun l => ∀ sl, parseList l = Except.ok sl →
    SList.length sl = XList.countTag l ("suite")) ?_ ?_
  · intro sl h
    simp only [parseList, Except.ok.injEq] at h
    subst h
    rfl
  · intro e rest ih sl h
    simp only [parseList] at h
    by_cases htag : XElem.tag e == ("suite")
    · rw [if_pos htag] at h
      cases hpe : parseOne e with
      | error err => rw [hpe] at h; exact absurd h (by simp)
      | ok d =>
        rw [hpe] at h
        cases hr : parseList rest with
        | error err => rw [hr] at h; exact absurd h (by simp)
        | ok ds =>
          rw [hr] at h
          simp only [Except.ok.injEq] at h
          subst h
          show 1 + SList.length ds = XList.countTag (XList.cons e rest) ("suite")
          rw [ih ds hr]
          simp [XList.countTag, htag]
    · rw [if_neg htag] at h
      have := ih sl h
      simp only [XList.countTag, if_neg htag, Nat.zero_add]
      exact this

/-- Every child list whose test-tagged elements carry status children parses
its tests successfully. -/
theorem parseTests_ok : ∀ l, testsOk l = true → ∃ ts, parseTests l = Except.ok ts := by
  refine xlInd (fun l => testsOk l = true → ∃ ts, parseTests l = Except.ok ts) ?_ ?_
  · intro _
    exact ⟨[], rfl⟩
  · intro e rest ih h
    simp only [testsOk, Bool.and_eq_true] at h
    obtain ⟨h1, h2⟩ := h
    obtain ⟨ts, hts⟩ := ih h2
    by_cases htag : XElem.tag e == ("test")
    · rw [if_pos htag] at h1
      obtain ⟨st, hst⟩ := Option.isSome_iff_exists.mp h1
      have hpt : parseTest e = Except.ok ⟨XElem.getAttr e ("name"), XElem.getAttr e ("id"),
          XElem.getAttr st ("status"), XElem.getAttr st ("starttime"),
          XElem.getAttr st ("endtime"), XElem.text st,
          (XElem.getAttr e ("critical")).getD ("yes")⟩ := by
        unfold parseTest
        rw [hst]
      have hstep : parseTests (XList.cons e rest) = Except.ok (⟨XElem.getAttr e ("name"),
          XElem.getAttr e ("id"), XElem.getAttr st ("status"), XElem.getAttr st ("starttime"),
          XElem.getAttr st ("endtime"), XElem.text st,
          (XElem.getAttr e ("critical")).getD ("yes")⟩ :: ts) := by
        simp only [parseTests]
        rw [if_pos htag, hpt, hts]
      exact ⟨_, hstep⟩
    · refine ⟨ts, ?_⟩
      simp only [parseTests]
      rw [if_neg htag]
      exact hts

/-- Every well-formed suite forest parses successfully. -/
theorem parse_ok :
    (∀ e, suiteOk e = true → ∃ d, parseOne e = Except.ok d) ∧
    (∀ l, suitesOk l = true → ∃ sl, parseList l = Except.ok sl) := by
  refine xInd (fun e => suiteOk e = true → ∃ d, parseOne e = Except.ok d)
    (fun l => suitesOk l = true → ∃ sl, parseList l = Except.ok sl) ?_ ?_ ?_
  · intro t a tx ch hch h
    simp only [suiteOk, Bool.and_eq_true] at h
    obtain ⟨⟨h1, h2⟩, h3⟩ := h
    obtain ⟨st, hst⟩ := Option.isSome_iff_exists.mp h1
    obtain ⟨subs, hsubs⟩ := hch h2
    obtain ⟨ts, hts⟩ := parseTests_ok ch h3
    have hstep : parseOne (XElem.mk t a tx ch) = Except.ok (SuiteData.mk (attrLookup a ("name"))
        (attrLookup a ("id")) (XElem.getAttr st ("status")) (XElem.getAttr st ("starttime"))
        (XElem.getAttr st ("endtime")) (XElem.text st) ts subs) := by
      simp only [parseOne]
      rw [hst, hsubs, hts]
    exact ⟨_, hstep⟩
  · intro _
    exact ⟨SList.nil, rfl⟩
  · intro e rest he hrest h
    simp only [suitesOk, Bool.and_eq_true] at h
    obtain ⟨h1, h2⟩ := h
    obtain ⟨sl, hsl⟩ := hrest h2
    by_cases htag : XElem.tag e == ("suite")
    · rw [if_pos htag] at h1
      obtain ⟨d, hd⟩ := he h1
      refine ⟨SList.cons d sl, ?_⟩
      simp only [parseList]
      rw [if_pos htag, hd, hsl]
    · refine ⟨sl, ?_⟩
      simp only [parseList]
      rw [if_neg htag]
      exact hsl

/-! ## Error-taxonomy lemmas: which exceptions each stage can raise -/

/-- `pyDigits` only ever raises `ValueError`. -/
theorem pyDigits_err (l : List Char) (err : PyErr) (h : pyDigits l = Except.error err) :
    err = PyErr.valueError := by
  unfold pyDigits at h
  split at h
  · exact absurd h (by simp)
  · simp only [Except.error.injEq] at h
    exact h.symm

/-- `int(...)` on a string only ever raises `ValueError`. -/
theorem pyIntStr_err (s : String) (err : PyErr) (h : pyIntStr s = Except.error err) :
    err = PyErr.valueError := by
  unfold pyIntStr at h
  split at h
  · simp only [Except.error.injEq] at h
    exact h.symm
  · rename_i c cs heq
    split at h
    · cases hpd : pyDigits cs with
      | error e2 =>
        rw [hpd] at h
        simp only [Except.map, Except.error.injEq] at h
        exact h ▸ pyDigits_err cs e2 hpd
      | ok v => rw [hpd] at h; exact absurd h (by simp [Except.map])
    · split at h
      · exact pyDigits_err cs err h
      · exact pyDigits_err (c :: cs) err h

/-- Reading an integer child only raises `AttributeError`, `TypeError` or
`ValueError`, never `ParseError`. -/
theorem childInt_ne_parseError (st : XElem) (t : String) (err : PyErr)
    (h : childInt st t = Except.error err) : err ≠ PyErr.parseError := by
  unfold childInt at h
  split at h
  · simp only [Except.error.injEq] at h
    subst h
    decide
  · rename_i e _
    cases htx : XElem.text e with
    | none =>
      rw [htx] at h
      simp only [pyIntText, Except.error.injEq] at h
      subst h
      decide
    | some s =>
      rw [htx] at h
      simp only [pyIntText] at h
      rw [pyIntStr_err s err h]
      decide

/-- The statistics extraction never raises `ParseError`. -/
theorem loadStats_ne_parseError (root : XElem) (err : PyErr)
    (h : loadStats root = Except.error err) : err ≠ PyErr.parseError := by
  unfold loadStats at h
  split at h
  · simp only [Except.error.injEq] at h
    subst h
    decide
  · rename_i st _
    split at h
    · rename_i e1 hp
      simp only [Except.error.injEq] at h
      exact h ▸ childInt_ne_parseError st ("pass") e1 hp
    · split at h
      · rename_i e1 hf
        simp only [Except.error.injEq] at h
        exact h ▸ childInt_ne_parseError st ("fail") e1 hf
      · split at h
        · rename_i e1 hs
          simp only [Except.error.injEq] at h
          exact h ▸ childInt_ne_parseError st ("skip") e1 hs
        · exact absurd h (by simp)

/-- Building a test record never raises `ParseError`. -/
theorem parseTest_ne_parseError (e : XElem) (err : PyErr)
    (h : parseTest e = Except.error err) : err ≠ PyErr.parseError := by
  unfold parseTest at h
  cases hf : XElem.findChild e ("status") with
  | none =>
    rw [hf] at h
    simp only [Except.error.injEq] at h
    subst h
    decide
  | some st => rw [hf] at h; exact absurd h (by simp)

/-- The test loop never raises `ParseError`. -/
theorem parseTests_ne_parseError : ∀ l err, parseTests l = Except.error err →
    err ≠ PyErr.parseError := by
  refine xlInd (fun l => ∀ err, parseTests l = Except.error err → err ≠ PyErr.parseError) ?_ ?_
  · intro err h
    exact absurd h (by simp [parseTests])
  · intro e rest ih err h
    simp only [parseTests] at h
    by_cases htag : XElem.tag e == ("test")
    · rw [if_pos htag] at h
      cases hpt : parseTest e with
      | error e1 =>
        rw [hpt] at h
        simp only [Except.error.injEq] at h
        exact h ▸ parseTest_ne_parseError e e1 hpt
      | ok d =>
        rw [hpt] at h
        cases hrest : parseTests rest with
        | error e1 =>
          rw [hrest] at h
          simp only [Except.error.injEq] at h
          exact h ▸ ih e1 hrest
        | ok ds => rw [hrest] at h; exact absurd h (by simp)
    · rw [if_neg htag] at h
      exact ih err h

/-- The recursive suite parser never raises `ParseError`. -/
theorem parse_ne_parseError :
    (∀ e err, parseOne e = Except.error err → err ≠ PyErr.parseError) ∧
    (∀ l err, parseList l = Except.error err → err ≠ PyErr.parseError) := by
  refine xInd (fun e => ∀ err, parseOne e = Except.error err → err ≠ PyErr.parseError)
    (fun l => ∀ err, parseList l = Except.error err → err ≠ PyErr.parseError) ?_ ?_ ?_
  · intro t a tx ch hch err h
    simp only [parseOne] at h
    cases hst : firstTag ch ("status") with
    | none =>
      rw [hst] at h
      simp only [Except.error.injEq] at h
      subst h
      decide
    | some st =>
      rw [hst] at h
      cases hsubs : parseList ch with
      | error e1 =>
        rw [hsubs] at h
        simp only [Except.error.injEq] at h
        exact h ▸ hch e1 hsubs
      | ok subs =>
        rw [hsubs] at h
        cases hts : parseTests ch with
        | error e1 =>
          rw [hts] at h
          simp only [Except.error.injEq] at h
          exact h ▸ parseTests_ne_parseError ch e1 hts
        | ok ts => rw [hts] at h; exact absurd h (by simp)
  · intro err h
    exact absurd h (by simp [parseList])
  · intro e rest he hrest err h
    simp only [parseList] at h
    by_cases htag : XElem.tag e == ("suite")
    · rw [if_pos htag] at h
      cases hpe : parseOne e with
      | error e1 =>
        rw [hpe] at h
        simp only [Except.error.injEq] at h
        exact h ▸ he e1 hpe
      | ok d =>
        rw [hpe] at h
        cases hr : parseList rest with
        | error e1 =>
          rw [hr] at h
          simp only [Except.error.injEq] at h
          exact h ▸ hrest e1 hr
        | ok ds => rw [hr] at h; exact absurd h (by simp)
    · rw [if_neg htag] at h
      exact hrest err h

/-- A present statistics block with three parsable counts loads successfully. -/
theorem loadStats_ok (root : XElem) (h : statsOk root = true) :
    ∃ v, loadStats root = Except.ok v := by
  unfold statsOk at h
  cases hta : findTotalAll root with
  | none => rw [hta] at h; exact absurd h (by simp)
  | some st =>
    rw [hta] at h
    simp only [Bool.and_eq_true] at h
    obtain ⟨⟨h1, h2⟩, h3⟩ := h
    have e1 : ∃ p, childInt st ("pass") = Except.ok p := by
      cases hp : childInt st ("pass") with
      | error e2 => rw [hp] at h1; exact absurd h1 (by simp [exOk])
      | ok p => exact ⟨p, rfl⟩
    have e2 : ∃ f, childInt st ("fail") = Except.ok f := by
      cases hf : childInt st ("fail") with
      | error e2 => rw [hf] at h2; exact absurd h2 (by simp [exOk])
      | ok f => exact ⟨f, rfl⟩
    have e3 : ∃ s, childInt st ("skip") = Except.ok s := by
      cases hs : childInt st ("skip") with
      | error e2 => rw [hs] at h3; exact absurd h3 (by simp [exOk])
      | ok s => exact ⟨s, rfl⟩
    obtain ⟨p, hp⟩ := e1
    obtain ⟨f, hf⟩ := e2
    obtain ⟨s, hs⟩ := e3
    refine ⟨(p, f, s), ?_⟩
    simp only [loadStats, hta, hp, hf, hs]

/-! ## Claim C1 -/

/-- Claim C1, corrected. Whenever the loader produces a `RunSummary`, its
total equals passed + failed + skipped (line 31). The second half of the claim
fails on the code: when the skip count is absent the loader raises an
`AttributeError` instead of computing `passed + failed`, so for such
documents the statistics extraction errors out (second conjunct). -/
theorem total_eq_sum_amended :
    (∀ root rs sl, loadDoc root = Except.ok (rs, sl) →
      RunSummary.total rs = RunSummary.passed rs + RunSummary.failed rs + RunSummary.skipped rs) ∧
    (∀ root st, findTotalAll root = some st → XElem.findChild st ("skip") = none →
      ∃ err, loadStats root = Except.error err) := by
  constructor
  · intro root rs sl h
    unfold loadDoc at h
    cases hs : loadStats root with
    | error err => rw [hs] at h; exact absurd h (by simp)
    | ok v =>
      obtain ⟨p, f, s⟩ := v
      rw [hs] at h
      cases hps : parse_suite root with
      | error err => rw [hps] at h; exact absurd h (by simp)
      | ok suites =>
        rw [hps] at h
        simp only [Except.ok.injEq, Prod.mk.injEq] at h
        obtain ⟨h1, h2⟩ := h
        subst h1
        rfl
  · intro root st hta hskip
    cases hp : childInt st ("pass") with
    | error e1 => exact ⟨e1, by simp only [loadStats, hta, hp]⟩
    | ok p =>
      cases hf : childInt st ("fail") with
      | error e1 => exact ⟨e1, by simp only [loadStats, hta, hp, hf]⟩
      | ok f =>
        have hskipErr : childInt st ("skip") = Except.error PyErr.attributeError := by
          unfold childInt
          rw [hskip]
        exact ⟨PyErr.attributeError, by simp only [loadStats, hta, hp, hf, hskipErr]⟩

/-- Counterexample to claim C1 as stated: on a document supplying only pass
and fail counts the loader raises `AttributeError` — no summary with
`total = passed + failed` is produced. -/
theorem skip_absent_fails_cx :
    loadStats docNoSkip = Except.error PyErr.attributeError ∧
    loadDoc docNoSkip = Except.error PyErr.attributeError :=
  ⟨rfl, rfl⟩

/-- Witness for the amended C1 at concrete inputs. -/
theorem total_eq_sum_amended_witness :
    RunSummary.total rsSample =
      RunSummary.passed rsSample + RunSummary.failed rsSample + RunSummary.skipped rsSample ∧
    (∃ err, loadStats docNoSkip = Except.error err) :=
  ⟨total_eq_sum_amended.1 sampleDoc rsSample slSample rfl,
   total_eq_sum_amended.2 docNoSkip allNoSkip rfl rfl⟩

/-! ## Claim C2 -/

/-- Claim C2. For every loaded document with non-negative counts (the shape
the schema guarantees): the pass rate is exactly 0 when total = 0, equals passed/total·100 as
an exact rational when total > 0, always lies in [0, 100]; the pass-rate card
renders it via the two-decimal `"%.2f"` format (exactly two digits after the
single decimal point) while the total/passed/failed cards render the counts
as plain integers without any decimal point. -/
theorem pass_rate_spec :
    ∀ root rs sl, loadDoc root = Except.ok (rs, sl) →
      (0 : Int) ≤ RunSummary.passed rs → (0 : Int) ≤ RunSummary.failed rs →
      (0 : Int) ≤ RunSummary.skipped rs →
      (RunSummary.total rs = 0 → RunSummary.pass_rate rs = 0) ∧
      (0 < RunSummary.total rs → RunSummary.pass_rate rs =
        ((RunSummary.passed rs : Int) : ℚ) / ((RunSummary.total rs : Int) : ℚ) * 100) ∧
      0 ≤ RunSummary.pass_rate rs ∧ RunSummary.pass_rate rs ≤ 100 ∧
      cardValue rs ("pass_rate_2f") = format2dp (RunSummary.pass_rate rs) ∧
      (∃ ip fr : List Char, (cardValue rs ("pass_rate_2f")).data = ip ++ ('.' : Char) :: fr ∧
        fr.length = 2 ∧ ('.' : Char) ∉ ip ∧ ('.' : Char) ∉ fr) ∧
      cardValue rs ("total") = intToStr (RunSummary.total rs) ∧
      cardValue rs ("passed") = intToStr (RunSummary.passed rs) ∧
      cardValue rs ("failed") = intToStr (RunSummary.failed rs) ∧
      ('.' : Char) ∉ (intToStr (RunSummary.total rs)).data ∧
      ('.' : Char) ∉ (intToStr (RunSummary.passed rs)).data ∧
      ('.' : Char) ∉ (intToStr (RunSummary.failed rs)).data := by
  intro root rs sl h hpp hff hss
  unfold loadDoc at h
  cases hs : loadStats root with
  | error err => rw [hs] at h; exact absurd h (by simp)
  | ok v =>
    obtain ⟨p, f, s⟩ := v
    rw [hs] at h
    cases hps : parse_suite root with
    | error err => rw [hps] at h; exact absurd h (by simp)
    | ok suites =>
      rw [hps] at h
      simp only [Except.ok.injEq, Prod.mk.injEq] at h
      obtain ⟨h1, h2⟩ := h
      subst h1
      have hp0 : (0 : Int) ≤ p := hpp
      have hf0 : (0 : Int) ≤ f := hff
      have hs0 : (0 : Int) ≤ s := hss
      refine ⟨?_, ?_, ?_, ?_, rfl, ?_, rfl, rfl, rfl,
        intToStr_no_dot _, intToStr_no_dot _, intToStr_no_dot _⟩
      · intro h0
        have h0' : p + f + s = 0 := h0
        show pass_rate p (p + f + s) = 0
        unfold pass_rate
        rw [if_neg (by omega : ¬ (0 : Int) < p + f + s)]
      · intro ht
        have ht' : (0 : Int) < p + f + s := ht
        show pass_rate p (p + f + s) = ((p : ℚ) / ((p + f + s : Int) : ℚ)) * 100
        unfold pass_rate
        rw [if_pos ht']
      · exact pass_rate_nonneg p (p + f + s) hp0
      · exact pass_rate_le_100 p (p + f + s) (by omega)
      · exact format2dp_shape (pass_rate p (p + f + s))

/-- Witness for C2 at the 7/2/1 sample document. -/
theorem pass_rate_spec_witness :
    0 ≤ RunSummary.pass_rate rsSample ∧ RunSummary.pass_rate rsSample ≤ 100 ∧
    cardValue rsSample ("pass_rate_2f") = format2dp (RunSummary.pass_rate rsSample) :=
  ⟨(pass_rate_spec sampleDoc rsSample slSample rfl (by decide) (by decide) (by decide)).2.2.1,
   (pass_rate_spec sampleDoc rsSample slSample rfl (by decide) (by decide) (by decide)).2.2.2.1,
   (pass_rate_spec sampleDoc rsSample slSample rfl (by decide) (by decide) (by decide)).2.2.2.2.1⟩

/-! ## Claim C3 -/

/-- Claim C3. When the required results file does not exist, the process
exits with status 1 (non-zero), prints an error message containing the
missing path, and writes no output file (lines 18-20 run before any output
is produced). -/
theorem missing_input_spec :
    ∀ doc logFile outputFile,
      ProgOut.exitCode (runProgram false doc logFile outputFile) = 1 ∧
      errMsg logFile ∈ ProgOut.printed (runProgram false doc logFile outputFile) ∧
      (∃ pre post, errMsg logFile = pre ++ logFile ++ post) ∧
      ProgOut.written (runProgram false doc logFile outputFile) = none := by
  intro doc logFile outputFile
  refine ⟨rfl, ?_, ⟨("Error: "), (" not found!"), rfl⟩, rfl⟩
  show errMsg logFile ∈ [errMsg logFile]
  exact List.mem_singleton.mpr rfl

/-! ## Claim C4 -/

/-- Claim C4. The rows emitted by the rendered table equal the document-order
row expansion of the source document: the header of the (first) root suite, its
test elements in document order, and its sub-suites recursed in document
order. -/
theorem render_order_spec : ∀ root sl, parse_suite root = Except.ok sl →
    renderTable sl = docTable root := by
  intro root
  have key : ∀ l, ∀ sl, parseList l = Except.ok sl →
      renderTable sl =
        (match firstTag l ("suite") with | none => [] | some s => docRowsE s) := by
    refine xlInd _ ?_ ?_
    · intro sl h
      simp only [parseList, Except.ok.injEq] at h
      subst h
      rfl
    · intro e rest ih sl h
      simp only [parseList] at h
      by_cases htag : XElem.tag e == ("suite")
      · rw [if_pos htag] at h
        cases hpe : parseOne e with
        | error err => rw [hpe] at h; exact absurd h (by simp)
        | ok d =>
          rw [hpe] at h
          cases hr : parseList rest with
          | error err => rw [hr] at h; exact absurd h (by simp)
          | ok ds =>
            rw [hr] at h
            simp only [Except.ok.injEq] at h
            subst h
            show renderSuiteRows d = _
            rw [parse_render.1 e d hpe]
            simp [firstTag, htag]
      · rw [if_neg htag] at h
        have hft : firstTag (XList.cons e rest) ("suite") = firstTag rest ("suite") := by
          simp [firstTag, htag]
        rw [hft]
        exact ih sl h
  intro sl h
  exact key (XElem.children root) sl h

/-- Witness for C4 at the two-level sample document. -/
theorem render_order_spec_witness : renderTable slSample = docTable sampleDoc :=
  render_order_spec sampleDoc slSample rfl

/-! ## Claim C5 -/

/-- Claim C5. Within the summary-card markup, the computed total, passed and
failed counts are each interpolated exactly once (one `total` hole, one
`passed` hole, one `failed` hole). -/
theorem summary_cards_once_spec :
    holeCount summaryCards ("total") = 1 ∧ holeCount summaryCards ("passed") = 1 ∧
    holeCount summaryCards ("failed") = 1 :=
  ⟨rfl, rfl, rfl⟩

/-! ## Claim C6 -/

/-- Claim C6, corrected. The parsed forest has exactly one root per
suite-tagged direct child of the document root: zero roots when the document
has no top-level suite element, but `n` roots — not one — when it has `n`.
The "exactly one root" claim holds only for documents with exactly one
top-level suite element. -/
theorem root_count_amended : ∀ root sl, parse_suite root = Except.ok sl →
    SList.length sl = XList.countTag (XElem.children root) ("suite") ∧
    (XList.countTag (XElem.children root) ("suite") = 0 → sl = SList.nil) := by
  intro root sl h
  have h1 := parseList_length (XElem.children root) sl h
  refine ⟨h1, fun hz => ?_⟩
  rw [hz] at h1
  cases sl with
  | nil => rfl
  | cons s r =>
    simp only [SList.length] at h1
    omega

/-- Counterexample to claim C6 as stated: a document with two top-level suite
elements (suite data present) parses to two roots, not one. -/
theorem two_roots_cx :
    parse_suite twoSuiteDoc = Except.ok slTwo ∧ SList.length slTwo = 2 ∧
    XList.countTag (XElem.children twoSuiteDoc) ("suite") = 2 :=
  ⟨rfl, rfl, rfl⟩

/-- Witness for the amended C6 at the sample document. -/
theorem root_count_amended_witness :
    SList.length slSample = XList.countTag (XElem.children sampleDoc) ("suite") :=
  (root_count_amended sampleDoc slSample rfl).1

/-! ## Claim C7 -/

/-- Claim C7, corrected. Every parsed suite and test record copies the raw
status-element text verbatim into its elapsed field — numeric or not, no
millisecond-to-`HhMmSs` conversion is ever applied and no error is raised
once the status child exists. -/
theorem duration_verbatim_amended :
    (∀ e d, parseOne e = Except.ok d → ∃ st, XElem.findChild e ("status") = some st ∧
      SuiteData.elapsed d = XElem.text st) ∧
    (∀ e d, parseTest e = Except.ok d → ∃ st, XElem.findChild e ("status") = some st ∧
      TestRecord.elapsed d = XElem.text st) := by
  constructor
  · intro e d h
    cases e with
    | mk t a tx ch =>
      simp only [parseOne] at h
      cases hst : firstTag ch ("status") with
      | none => rw [hst] at h; exact absurd h (by simp)
      | some st =>
        rw [hst] at h
        cases h1 : parseList ch with
        | error err => rw [h1] at h; exact absurd h (by simp)
        | ok subs =>
          rw [h1] at h
          cases h2 : parseTests ch with
          | error err => rw [h2] at h; exact absurd h (by simp)
          | ok ts =>
            rw [h2] at h
            simp only [Except.ok.injEq] at h
            subst h
            exact ⟨st, hst, rfl⟩
  · intro e d h
    obtain ⟨st, hst, _, hel, _⟩ := parseTest_fields e d h
    exact ⟨st, hst, hel⟩

/-- Counterexample to claim C7 as stated: a millisecond-integer status text
`61000` is not converted to the `"0h1m1s"` form the spec describes — the
parsed elapsed field keeps the raw text. -/
theorem duration_passthrough_cx :
    parseOne suiteMs = Except.ok dMs ∧ SuiteData.elapsed dMs = some ("61000") ∧
    specFormatMs 61000 = ("0h1m1s") ∧ SuiteData.elapsed dMs ≠ some (specFormatMs 61000) :=
  ⟨rfl, rfl, rfl, by decide⟩

/-- Witness for the amended C7 at the millisecond-text suite. -/
theorem duration_verbatim_amended_witness :
    ∃ st, XElem.findChild suiteMs ("status") = some st ∧
      SuiteData.elapsed dMs = XElem.text st :=
  duration_verbatim_amended.1 suiteMs dMs rfl

/-! ## Claim C8 -/

/-- Claim C8, corrected. `ParseError` is raised exactly for a malformed
document: a well-formed document never produces `ParseError` (absent
statistics nodes raise `AttributeError`, bad counts `ValueError`/`TypeError`),
and every document whose statistics parse and whose suite/test elements all
carry status children loads successfully. A missing file exits before
parsing (see C3), not via `ParseError`. -/
theorem load_error_taxonomy_amended :
    loadInput none = Except.error PyErr.parseError ∧
    (∀ root, statsOk root = true → suitesOk (XElem.children root) = true →
      ∃ out, loadDoc root = Except.ok out) ∧
    (∀ root err, loadDoc root = Except.error err → err ≠ PyErr.parseError) := by
  refine ⟨rfl, ?_, ?_⟩
  · intro root hstats hsuites
    obtain ⟨v, hv⟩ := loadStats_ok root hstats
    obtain ⟨p, f, s⟩ := v
    obtain ⟨sl, hsl⟩ := parse_ok.2 (XElem.children root) hsuites
    have hps : parse_suite root = Except.ok sl := hsl
    refine ⟨(⟨p + f + s, p, f, s, pass_rate p (p + f + s), XElem.getAttr root ("generated"),
      (scanMeta (msgTexts root)
        ⟨("Not specified"), (XElem.getAttr root ("generator")).getD ("Unknown")⟩).2,
      (scanMeta (msgTexts root)
        ⟨("Not specified"), (XElem.getAttr root ("generator")).getD ("Unknown")⟩).1⟩, sl), ?_⟩
    simp only [loadDoc, hv, hps]
  · intro root err h
    unfold loadDoc at h
    cases hs : loadStats root with
    | error e1 =>
      rw [hs] at h
      simp only [Except.error.injEq] at h
      exact h ▸ loadStats_ne_parseError root e1 hs
    | ok v =>
      obtain ⟨p, f, s⟩ := v
      rw [hs] at h
      cases hps : parse_suite root with
      | error e1 =>
        rw [hps] at h
        simp only [Except.error.injEq] at h
        exact h ▸ parse_ne_parseError.2 (XElem.children root) e1 hps
      | ok suites => rw [hps] at h; exact absurd h (by simp)

/-- Counterexample to claim C8 as stated: a well-formed document with no
statistics nodes fails with `AttributeError`, not `ParseError`. -/
theorem stats_absent_not_parse_error_cx :
    loadDoc docNoStats = Except.error PyErr.attributeError ∧
    PyErr.attributeError ≠ PyErr.parseError :=
  ⟨rfl, by decide⟩

/-- Witness for the amended C8: the sample document loads, and the error on
the skip-less document is not `ParseError`. -/
theorem load_error_taxonomy_amended_witness :
    (∃ out, loadDoc sampleDoc = Except.ok out) ∧
    PyErr.attributeError ≠ PyErr.parseError :=
  ⟨load_error_taxonomy_amended.2.1 sampleDoc rfl rfl,
   load_error_taxonomy_amended.2.2 docNoSkip PyErr.attributeError rfl⟩

/-! ## Claim C9 -/

/-- Claim C9. The metadata scan never fails (it is a total fold over the
message texts): when no message contains the needle, `env_info` stays at
`"Not specified"` and `executor` stays at the `generator` attribute or
`"Unknown"`; when some message matches, the value is the stripped trailing
substring after the (last occurrence of the) prefix in the last matching
message. -/
theorem metadata_scan_spec :
    ∀ root rs sl, loadDoc root = Except.ok (rs, sl) →
      ((msgTexts root).filter (fun x => strContains x ("Environment:")) = [] →
        RunSummary.env_info rs = ("Not specified")) ∧
      (∀ ts t, (msgTexts root).filter (fun x => strContains x ("Environment:")) = ts ++ [t] →
        RunSummary.env_info rs = pyStrip (pyLastPiece t ("Environment:"))) ∧
      ((msgTexts root).filter (fun x => strContains x ("Executed by:")) = [] →
        RunSummary.executor rs = (XElem.getAttr root ("generator")).getD ("Unknown")) ∧
      (∀ ts t, (msgTexts root).filter (fun x => strContains x ("Executed by:")) = ts ++ [t] →
        RunSummary.executor rs = pyStrip (pyLastPiece t ("Executed by:"))) := by
  intro root rs sl h
  unfold loadDoc at h
  cases hs : loadStats root with
  | error err => rw [hs] at h; exact absurd h (by simp)
  | ok v =>
    obtain ⟨p, f, s⟩ := v
    rw [hs] at h
    cases hps : parse_suite root with
    | error err => rw [hps] at h; exact absurd h (by simp)
    | ok suites =>
      rw [hps] at h
      simp only [Except.ok.injEq, Prod.mk.injEq] at h
      obtain ⟨h1, h2⟩ := h
      subst h1
      refine ⟨?_, ?_, ?_, ?_⟩
      · intro hf
        show (scanMeta (msgTexts root)
          ⟨("Not specified"), (XElem.getAttr root ("generator")).getD ("Unknown")⟩).1 =
          ("Not specified")
        rw [scanMeta_fst]
        exact foldl_scanOne_of_no_match ("Environment:") (msgTexts root) _ hf
      · intro ts t hf
        show (scanMeta (msgTexts root)
          ⟨("Not specified"), (XElem.getAttr root ("generator")).getD ("Unknown")⟩).1 =
          pyStrip (pyLastPiece t ("Environment:"))
        rw [scanMeta_fst]
        exact foldl_scanOne_of_last ("Environment:") (msgTexts root) _ ts t hf
      · intro hf
        show (scanMeta (msgTexts root)
          ⟨("Not specified"), (XElem.getAttr root ("generator")).getD ("Unknown")⟩).2 =
          (XElem.getAttr root ("generator")).getD ("Unknown")
        rw [scanMeta_snd]
        exact foldl_scanOne_of_no_match ("Executed by:") (msgTexts root) _ hf
      · intro ts t hf
        show (scanMeta (msgTexts root)
          ⟨("Not specified"), (XElem.getAttr root ("generator")).getD ("Unknown")⟩).2 =
          pyStrip (pyLastPiece t ("Executed by:"))
        rw [scanMeta_snd]
        exact foldl_scanOne_of_last ("Executed by:") (msgTexts root) _ ts t hf

/-- Witness for C9 at the sample document: the environment message is picked
up and the executor keeps the generator attribute. -/
theorem metadata_scan_spec_witness :
    RunSummary.env_info rsSample = pyStrip (pyLastPiece ("Environment: staging") ("Environment:")) ∧
    RunSummary.executor rsSample = (XElem.getAttr sampleDoc ("generator")).getD ("Unknown") :=
  ⟨(metadata_scan_spec sampleDoc rsSample slSample rfl).2.1 [] ("Environment: staging") rfl,
   (metadata_scan_spec sampleDoc rsSample slSample rfl).2.2.1 rfl⟩

/-! ## Claim C10 -/

/-- Claim C10. For every test element with a status child, parsing succeeds
regardless of the `critical` attribute; the criticality flag of the record equals
the attribute when present and `"yes"` when absent. -/
theorem critical_default_spec :
    ∀ e, (XElem.findChild e ("status")).isSome = true →
      ∃ d, parseTest e = Except.ok d ∧
        TestRecord.critical d = (XElem.getAttr e ("critical")).getD ("yes") ∧
        (XElem.getAttr e ("critical") = none → TestRecord.critical d = ("yes")) ∧
        (∀ v, XElem.getAttr e ("critical") = some v → TestRecord.critical d = v) := by
  intro e hsome
  obtain ⟨st, hst⟩ := Option.isSome_iff_exists.mp hsome
  have hpt : parseTest e = Except.ok ⟨XElem.getAttr e ("name"), XElem.getAttr e ("id"),
      XElem.getAttr st ("status"), XElem.getAttr st ("starttime"),
      XElem.getAttr st ("endtime"), XElem.text st,
      (XElem.getAttr e ("critical")).getD ("yes")⟩ := by
    unfold parseTest
    rw [hst]
  refine ⟨_, hpt, rfl, ?_, ?_⟩
  · intro h0
    show (XElem.getAttr e ("critical")).getD ("yes") = ("yes")
    rw [h0]
    rfl
  · intro v hv
    show (XElem.getAttr e ("critical")).getD ("yes") = v
    rw [hv]
    rfl

/-- Witness for C10 at a test element with no `critical` attribute. -/
theorem critical_default_spec_witness :
    ∃ d, parseTest testNoCrit = Except.ok d ∧
      TestRecord.critical d = (XElem.getAttr testNoCrit ("critical")).getD ("yes") ∧
      (XElem.getAttr testNoCrit ("critical") = none → TestRecord.critical d = ("yes")) ∧
      (∀ v, XElem.getAttr testNoCrit ("critical") = some v → TestRecord.critical d = v) :=
  critical_default_spec testNoCrit rfl
